import Mathlib

/-!
Shallow embedding of the Sky Guide AR core (Lens Studio TypeScript sources)
and proofs of the specification's claims about it.

Embedding conventions:
  * JS `number` values carrying angles, coordinates and magnitudes are
    modelled as real numbers (`ℝ`); exact-arithmetic parts of the code
    (the gaze dwell-time state machine, the visual magnitude mappings and
    heading smoothing, which use only `+ - * / max min` and comparisons)
    are modelled over `ℚ` so they stay executable.
  * Module-level mutable variables become fields of explicit state
    structures threaded through the functions that mutate them.
  * The renderer callback `setHighlightedConstellation` and the
    `onConstellationDeselected` callback are modelled as a `highlighted`
    string field and a `deselects` call counter inside the gaze state.
-/

namespace SkyGuide

open Real

/-! ## AstroMath.ts -/

/-- JS truncating division step used by the `%` operator: round toward zero. -/
noncomputable def jsTrunc (z : ℝ) : ℤ := if z < 0 then ⌈z⌉ else ⌊z⌋

/-- The JS `%` (remainder) operator on numbers: `x - y * trunc (x / y)`,
sign follows the dividend. -/
noncomputable def jsMod (x y : ℝ) : ℝ := x - y * (jsTrunc (x / y) : ℝ)

/-- `julianDate(date)`: `date.getTime() / 86400000 + 2440587.5`, with the
date given as milliseconds since the epoch. -/
noncomputable def julianDate (msSinceEpoch : ℝ) : ℝ :=
  msSinceEpoch / 86400000 + 2440587.5

/-- `gmst(jd)`: Greenwich Mean Sidereal Time in radians. -/
noncomputable def gmst (jd : ℝ) : ℝ :=
  let t := jd - 2451545.0
  let f := t - (⌊t⌋ : ℝ) + 0.5
  let theta := (2 * π) * (f + 0.7790572732640 + 0.00273781191135448 * t)
  jsMod (jsMod theta (2 * π) + 2 * π) (2 * π)

/-- `localSiderealTime(gmstRad, longitudeRad)`. -/
noncomputable def localSiderealTime (gmstRad longitudeRad : ℝ) : ℝ :=
  jsMod (jsMod (gmstRad + longitudeRad) (2 * π) + 2 * π) (2 * π)

/-- `Math.max(-1, Math.min(1, x))` — the clamp applied before every inverse
trig call in `equatorialToHorizontal`. -/
noncomputable def clamp1 (x : ℝ) : ℝ := max (-1) (min 1 x)

/-- The local `sinAlt` of `equatorialToHorizontal`:
`sinLat * sinDec + cosLat * cosDec * cosHA` with `ha = lst - ra`. -/
noncomputable def sinAltOf (raRad decRad lstRad latRad : ℝ) : ℝ :=
  sin latRad * sin decRad + cos latRad * cos decRad * cos (lstRad - raRad)

/-- The local `alt` of `equatorialToHorizontal`:
`Math.asin(Math.max(-1, Math.min(1, sinAlt)))`. -/
noncomputable def altOf (raRad decRad lstRad latRad : ℝ) : ℝ :=
  arcsin (clamp1 (sinAltOf raRad decRad lstRad latRad))

/-- The local `cosAlt` of `equatorialToHorizontal`: `Math.cos(alt)`. -/
noncomputable def cosAltOf (raRad decRad lstRad latRad : ℝ) : ℝ :=
  cos (altOf raRad decRad lstRad latRad)

/-- The local `cosAz` of `equatorialToHorizontal`:
`(sinDec - sinLat * sinAlt) / (cosLat * cosAlt)`. -/
noncomputable def cosAzOf (raRad decRad lstRad latRad : ℝ) : ℝ :=
  (sin decRad - sin latRad * sinAltOf raRad decRad lstRad latRad) /
    (cos latRad * cosAltOf raRad decRad lstRad latRad)

/-- `equatorialToHorizontal(raRad, decRad, lstRad, latRad)`, returning the
`[altitudeRad, azimuthRad]` pair.  The zenith/nadir guard
`Math.abs(cosAlt) < 1e-10` returns azimuth `0`; otherwise
`az = Math.acos(Math.max(-1, Math.min(1, cosAz)))`, replaced by
`2π - az` when `Math.sin(ha) > 0`. -/
noncomputable def equatorialToHorizontal (raRad decRad lstRad latRad : ℝ) :
    ℝ × ℝ :=
  let alt := altOf raRad decRad lstRad latRad
  if |cosAltOf raRad decRad lstRad latRad| < 1e-10 then (alt, 0)
  else
    let az := arccos (clamp1 (cosAzOf raRad decRad lstRad latRad))
    if sin (lstRad - raRad) > 0 then (alt, 2 * π - az) else (alt, az)

/-- `horizontalToCartesian(altRad, azRad, radius)`:
`+X = East`, `+Y = Up`, `-Z = North`. -/
noncomputable def horizontalToCartesian (altRad azRad radius : ℝ) :
    ℝ × ℝ × ℝ :=
  (radius * cos altRad * sin azRad,
   radius * sin altRad,
   -(radius * cos altRad * cos azRad))

/-- `magnitudeToAlpha(mag)`: `Math.max(0.15, 1.0 - (mag + 1.5) / 7.5)`. -/
def magnitudeToAlpha (mag : ℚ) : ℚ :=
  max 0.15 (1.0 - (mag + 1.5) / 7.5)

/-- `magnitudeToScale(mag)`: `Math.max(0.5, 3.0 - (mag + 1.5) * 0.385)`. -/
def magnitudeToScale (mag : ℚ) : ℚ :=
  max 0.5 (3.0 - (mag + 1.5) * 0.385)

/-- The haversine term `a` of `angularDistance`:
`sin²(dDec/2) + cos(dec1) * cos(dec2) * sin²(dRA/2)`. -/
noncomputable def haversineTerm (ra1 dec1 ra2 dec2 : ℝ) : ℝ :=
  sin ((dec2 - dec1) / 2) ^ 2 +
    cos dec1 * cos dec2 * sin ((ra2 - ra1) / 2) ^ 2

/-- `angularDistance(ra1, dec1, ra2, dec2)`:
`2 * Math.asin(Math.sqrt(Math.min(1, a)))`. -/
noncomputable def angularDistance (ra1 dec1 ra2 dec2 : ℝ) : ℝ :=
  2 * arcsin (Real.sqrt (min 1 (haversineTerm ra1 dec1 ra2 dec2)))

/-- The haversine term `a` of `angularDistanceAltAz`:
`sin²(dAlt/2) + cos(alt1) * cos(alt2) * sin²(dAz/2)`. -/
noncomputable def haversineTermAltAz (alt1 az1 alt2 az2 : ℝ) : ℝ :=
  sin ((alt2 - alt1) / 2) ^ 2 +
    cos alt1 * cos alt2 * sin ((az2 - az1) / 2) ^ 2

/-- `angularDistanceAltAz(alt1, az1, alt2, az2)`:
`2 * Math.asin(Math.sqrt(Math.min(1, a)))`. -/
noncomputable def angularDistanceAltAz (alt1 az1 alt2 az2 : ℝ) : ℝ :=
  2 * arcsin (Real.sqrt (min 1 (haversineTermAltAz alt1 az1 alt2 az2)))

/-- The wraparound-adjusted difference computed by the first half of
`smoothHeading` (the two sequential `if`s on `diff`). -/
def wrapDiff (current target : ℚ) : ℚ :=
  let diff0 := target - current
  let diff1 := if diff0 > 180 then diff0 - 360 else diff0
  if diff1 < -180 then diff1 + 360 else diff1

/-- `smoothHeading(current, target, alpha)`: exponential smoothing with
0°/360° wraparound handling, exactly the source's two sequential `if`s on
the difference and two sequential renormalizing `if`s on the result. -/
def smoothHeading (current target alpha : ℚ) : ℚ :=
  let diff0 := target - current
  let diff1 := if diff0 > 180 then diff0 - 360 else diff0
  let diff := if diff1 < -180 then diff1 + 360 else diff1
  let result0 := current + alpha * diff
  let result := if result0 < 0 then result0 + 360 else result0
  if result ≥ 360 then result - 360 else result

/-! ## Types.ts -/

/-- `StarRecord` catalog entry (Types.ts). -/
structure StarRecord where
  hip : ℕ
  ra : ℝ
  dec : ℝ
  mag : ℝ
  bv : ℝ
  name : String
  con : String

/-- `ConstellationRecord` catalog entry (Types.ts). -/
structure ConstellationRecord where
  abbr : String
  name : String
  lines : List (ℕ × ℕ)
  centroidRA : ℝ
  centroidDec : ℝ

/-- `StarPosition3D` computed output entry (Types.ts). -/
structure StarPosition3D where
  hip : ℕ
  x : ℝ
  y : ℝ
  z : ℝ
  mag : ℝ
  bv : ℝ
  name : String

/-- `ObserverState` (Types.ts). -/
structure ObserverState where
  latitude : ℝ
  longitude : ℝ
  lstRadians : ℝ
  headingDeg : ℝ
  timestamp : ℝ

/-! ## SkyEngine.ts

The module-level mutable variables `observer`, `starPositions` and
`initialized` are gathered into one state record threaded through
`updateStarPositions`.  The star catalog `STARS` (an auto-generated
constant table) and the wall-clock instant `new Date()` become explicit
parameters. -/

/-- The mutable module state of SkyEngine.ts. -/
structure EngineState where
  observer : ObserverState
  starPositions : List StarPosition3D
  initialized : Bool

def SPHERE_RADIUS : ℝ := 500

/-- `updateStarPositions()`.  The early return on `!initialized` leaves the
state untouched.  Otherwise LST is recomputed and stored, and the per-star
loop assigns every field of every entry of the output buffer from catalog
entry `i` (so the buffer's final contents are this map whether or not the
first-call allocation branch ran). -/
noncomputable def updateStarPositions (STARS : List StarRecord)
    (nowMs : ℝ) (s : EngineState) : EngineState :=
  if s.initialized then
    let jd := julianDate nowMs
    let gmstRad := gmst jd
    let lstRad := localSiderealTime gmstRad s.observer.longitude
    let obs := { s.observer with lstRadians := lstRad }
    let lat := obs.latitude
    let positions := STARS.map (fun star =>
      let altAz := equatorialToHorizontal star.ra star.dec lstRad lat
      let xyz := horizontalToCartesian altAz.1 altAz.2 SPHERE_RADIUS
      { hip := star.hip, x := xyz.1, y := xyz.2.1, z := xyz.2.2,
        mag := star.mag, bv := star.bv, name := star.name : StarPosition3D })
    { s with observer := obs, starPositions := positions }
  else s

/-! ## GazeAndHandController.ts

The mutable variables `currentGazeConstellation` and `gazeHoldTime`,
together with the renderer's `highlightedConstellation` variable
(written through `Renderer.setHighlightedConstellation`) and a counter of
`onConstellationDeselected` invocations, form the gaze state.  Dwell
times are exact rationals so the state machine stays executable. -/

/-- Gaze state: the controller's own variables plus the two observable
side-effect channels (renderer highlight string, deselect-callback count). -/
structure GazeState where
  current : String
  hold : ℚ
  highlighted : String
  deselects : ℕ
deriving DecidableEq

noncomputable def GAZE_THRESHOLD_RAD : ℝ := 8.0 * (π / 180)

def GAZE_HOLD_DELAY : ℚ := 0.5

/-- `clearGaze()`: when a constellation was current, reset the gaze
variables, clear the renderer highlight and fire the deselect callback. -/
def clearGaze (s : GazeState) : GazeState :=
  if s.current ≠ "" then
    { current := "", hold := 0, highlighted := "", deselects := s.deselects + 1 }
  else s

/-- One iteration of the candidate-selection loop of `updateGaze`
(lines 122–138): convert the centroid to horizontal coordinates, skip it
when below the horizon, otherwise keep it if its angular distance beats
the running minimum `acc.2`. -/
noncomputable def candidateStep (gazeAlt gazeAz lstRadians latitude : ℝ)
    (acc : String × ℝ) (c : ConstellationRecord) : String × ℝ :=
  let centroid := equatorialToHorizontal c.centroidRA c.centroidDec
    lstRadians latitude
  if centroid.1 < 0 then acc
  else
    let dist := angularDistanceAltAz gazeAlt gazeAz centroid.1 centroid.2
    if dist < acc.2 then (c.abbr, dist) else acc

/-- The candidate-selection loop of `updateGaze` (lines 118–138): fold over
the constellation table, with the running minimum started at the 8°
threshold (`closestAbbr = ''`, `closestDist = GAZE_THRESHOLD_RAD`). -/
noncomputable def selectCandidate (gazeAlt gazeAz lstRadians latitude : ℝ)
    (cons : List ConstellationRecord) : String × ℝ :=
  cons.foldl (candidateStep gazeAlt gazeAz lstRadians latitude)
    ("", GAZE_THRESHOLD_RAD)

/-- The highlight-state update of `updateGaze` (lines 140–153), given the
loop's `closestAbbr` result and the tick's `deltaTime`. -/
def gazeStep (closestAbbr : String) (deltaTime : ℚ) (s : GazeState) :
    GazeState :=
  if closestAbbr ≠ s.current then
    if closestAbbr = "" then clearGaze s
    else { s with current := closestAbbr, hold := 0 }
  else if closestAbbr ≠ "" then
    let h := s.hold + deltaTime
    if h ≥ GAZE_HOLD_DELAY then
      { s with hold := h, highlighted := closestAbbr }
    else { s with hold := h }
  else s

/-- `updateGaze(deltaTime)` from the pointing direction expressed as
altitude/azimuth (the conversion from the camera's forward vector and the
heading un-rotation happen upstream of the embedded part): the −5°
sub-horizon early exit, then the candidate loop, then the state update. -/
noncomputable def updateGaze (gazeAlt gazeAz lstRadians latitude : ℝ)
    (cons : List ConstellationRecord) (deltaTime : ℚ) (s : GazeState) :
    GazeState :=
  if gazeAlt < -5 * (π / 180) then clearGaze s
  else gazeStep (selectCandidate gazeAlt gazeAz lstRadians latitude cons).1
    deltaTime s

/-- Iterating `gazeStep` with a fixed candidate over a list of tick
durations (the simulated-ticks scenario of the spec). -/
def runGaze (closestAbbr : String) (deltas : List ℚ) (s : GazeState) :
    GazeState :=
  deltas.foldl (fun st d => gazeStep closestAbbr d st) s

/-! ## Helper lemmas -/

theorem clamp1_mem (x : ℝ) : -1 ≤ clamp1 x ∧ clamp1 x ≤ 1 :=
  ⟨le_max_left _ _, max_le (by norm_num) (min_le_left _ _)⟩

/-- The haversine term is nonnegative for all real inputs: writing
`cos d1 * cos d2` by the product formula and `sin²` by the half-angle
formula exhibits it as a nonnegative combination. -/
theorem havCombination_nonneg (d1 d2 dr : ℝ) :
    0 ≤ sin ((d2 - d1) / 2) ^ 2 + cos d1 * cos d2 * sin (dr / 2) ^ 2 := by
  have h1 : sin ((d2 - d1) / 2) ^ 2 = 1 / 2 - cos (d2 - d1) / 2 := by
    have h := Real.sin_sq_eq_half_sub ((d2 - d1) / 2)
    rwa [show 2 * ((d2 - d1) / 2) = d2 - d1 by ring] at h
  have h2 : cos d1 * cos d2 = (cos (d2 - d1) + cos (d2 + d1)) / 2 := by
    rw [Real.cos_sub, Real.cos_add]; ring
  have p1 : 0 ≤ (1 - cos (d2 - d1)) * (1 - sin (dr / 2) ^ 2) :=
    mul_nonneg (by linarith [Real.cos_le_one (d2 - d1)])
      (by linarith [Real.sin_sq_le_one (dr / 2)])
  have p2 : 0 ≤ sin (dr / 2) ^ 2 * (cos (d2 + d1) + 1) :=
    mul_nonneg (sq_nonneg _) (by linarith [Real.neg_one_le_cos (d2 + d1)])
  rw [h1, h2]
  nlinarith [p1, p2]

theorem haversineTerm_nonneg (ra1 dec1 ra2 dec2 : ℝ) :
    0 ≤ haversineTerm ra1 dec1 ra2 dec2 :=
  havCombination_nonneg dec1 dec2 (ra2 - ra1)

theorem haversineTermAltAz_nonneg (alt1 az1 alt2 az2 : ℝ) :
    0 ≤ haversineTermAltAz alt1 az1 alt2 az2 :=
  havCombination_nonneg alt1 alt2 (az2 - az1)

/-! ## Claim theorems -/

/-- C4 counterexample: at magnitude −9 (brighter than the −1.5 endpoint the
code's comment names), `magnitudeToAlpha` returns 2 > 1 and
`magnitudeToScale` returns 5.8875 > 3, so neither stated ceiling holds for
every magnitude value. -/
theorem magnitude_ranges_fail_below_minus_one_point_five :
    magnitudeToAlpha (-9) = 2 ∧ 1 < magnitudeToAlpha (-9) ∧
      3 < magnitudeToScale (-9) := by
  refine ⟨?_, ?_, ?_⟩ <;> norm_num [magnitudeToAlpha, magnitudeToScale]

/-- C4 (amended): the floors 0.15 and 0.5 hold unconditionally, and for
magnitudes at or above −1.5 (the brightest catalog entry the code's
comments name) the ceilings 1.0 and 3.0 hold as well. -/
theorem magnitude_ranges_amended :
    ∀ mag : ℚ, 0.15 ≤ magnitudeToAlpha mag ∧ 0.5 ≤ magnitudeToScale mag ∧
      (-1.5 ≤ mag → magnitudeToAlpha mag ≤ 1 ∧ magnitudeToScale mag ≤ 3) := by
  intro mag
  refine ⟨le_max_left _ _, le_max_left _ _, fun h => ⟨?_, ?_⟩⟩
  · have h0 : 0 ≤ (mag + 1.5) / 7.5 := div_nonneg (by linarith) (by norm_num)
    exact max_le (by norm_num) (by linarith)
  · exact max_le (by norm_num) (by nlinarith)

/-- C4 witness: the amended ranges evaluated at magnitude 0. -/
theorem magnitude_ranges_amended_at_zero :
    0.15 ≤ magnitudeToAlpha 0 ∧ 0.5 ≤ magnitudeToScale 0 ∧
      (magnitudeToAlpha 0 ≤ 1 ∧ magnitudeToScale 0 ≤ 3) :=
  ⟨(magnitude_ranges_amended 0).1, (magnitude_ranges_amended 0).2.1,
    (magnitude_ranges_amended 0).2.2 (by norm_num)⟩

/-- C6: for headings in [0, 360) and alpha in [0, 1], `smoothHeading` lands
in [0, 360) and equals the blend `current + alpha * wrapDiff`, up to one
final renormalizing multiple of 360, where `wrapDiff` is the difference
adjusted by ±360 into magnitude ≤ 180 (the shortest angular path); and
concretely `smoothHeading 359 1 0.5 = 0`. -/
theorem smoothHeading_spec :
    (∀ current target alpha : ℚ, 0 ≤ current → current < 360 →
      0 ≤ target → target < 360 → 0 ≤ alpha → alpha ≤ 1 →
      0 ≤ smoothHeading current target alpha ∧
        smoothHeading current target alpha < 360 ∧
        |wrapDiff current target| ≤ 180 ∧
        ∃ k : ℚ, (k = 0 ∨ k = 360 ∨ k = -360) ∧
          smoothHeading current target alpha =
            current + alpha * wrapDiff current target + k) ∧
    smoothHeading 359 1 (1 / 2) = 0 := by
  constructor
  · intro current target alpha h1 h2 h3 h4 h5 h6
    have hD : -180 ≤ wrapDiff current target ∧ wrapDiff current target ≤ 180 := by
      unfold wrapDiff
      dsimp only
      split_ifs <;> constructor <;> linarith
    have hsm : smoothHeading current target alpha =
        (fun r1 : ℚ => if r1 ≥ 360 then r1 - 360 else r1)
          (if current + alpha * wrapDiff current target < 0
            then current + alpha * wrapDiff current target + 360
            else current + alpha * wrapDiff current target) := rfl
    obtain ⟨hDl, hDu⟩ := hD
    have hp1 : alpha * wrapDiff current target ≤ 180 := by nlinarith
    have hp2 : -180 ≤ alpha * wrapDiff current target := by nlinarith
    rw [hsm]
    dsimp only
    refine ⟨?_, ?_, abs_le.mpr ⟨hDl, hDu⟩, ?_⟩ <;> split_ifs <;>
      first
        | linarith
        | (refine ⟨360, Or.inr (Or.inl rfl), ?_⟩; ring1)
        | (refine ⟨-360, Or.inr (Or.inr rfl), ?_⟩; ring1)
        | (refine ⟨0, Or.inl rfl, ?_⟩; ring1)
  · norm_num [smoothHeading]

/-- C5: for all real inputs the inverse-trig arguments of
`equatorialToHorizontal` — `clamp1 sinAlt` passed to `asin` and
`clamp1 cosAz` passed to `acos` — lie in [−1, 1] (the clamp absorbs any
out-of-domain value, so no NaN can arise from `asin`/`acos`), and in the
zenith/nadir guard branch (`|cos alt| < 1e-10`) the azimuth returned is 0
by convention instead of the result of the division. -/
theorem equatorialToHorizontal_domain_safe : ∀ ra dec lst lat : ℝ,
    (-1 ≤ clamp1 (sinAltOf ra dec lst lat) ∧
      clamp1 (sinAltOf ra dec lst lat) ≤ 1) ∧
    (-1 ≤ clamp1 (cosAzOf ra dec lst lat) ∧
      clamp1 (cosAzOf ra dec lst lat) ≤ 1) ∧
    (|cosAltOf ra dec lst lat| < 1e-10 →
      (equatorialToHorizontal ra dec lst lat).2 = 0) := by
  intro ra dec lst lat
  refine ⟨clamp1_mem _, clamp1_mem _, fun h => ?_⟩
  unfold equatorialToHorizontal
  rw [if_pos h]

/-- C5 witness: at `ra = dec = lst = lat = 0` the star is at the zenith
(`sinAlt = 1`, `alt = π/2`, `cos alt = 0`), the guard fires, and the
returned azimuth is 0. -/
theorem equatorialToHorizontal_domain_safe_at_zenith :
    ((-1 ≤ clamp1 (sinAltOf 0 0 0 0) ∧ clamp1 (sinAltOf 0 0 0 0) ≤ 1) ∧
      (-1 ≤ clamp1 (cosAzOf 0 0 0 0) ∧ clamp1 (cosAzOf 0 0 0 0) ≤ 1)) ∧
    (equatorialToHorizontal 0 0 0 0).2 = 0 := by
  have hcos : cosAltOf 0 0 0 0 = 0 := by
    have hs : sinAltOf 0 0 0 0 = 1 := by
      simp [sinAltOf]
    have hc : clamp1 (1 : ℝ) = 1 := by
      unfold clamp1
      norm_num
    simp [cosAltOf, altOf, hs, hc, Real.arcsin_one]
  have h : |cosAltOf 0 0 0 0| < 1e-10 := by
    rw [hcos]
    norm_num
  exact ⟨⟨(equatorialToHorizontal_domain_safe 0 0 0 0).1,
    (equatorialToHorizontal_domain_safe 0 0 0 0).2.1⟩,
    (equatorialToHorizontal_domain_safe 0 0 0 0).2.2 h⟩

/-- C10: `equatorialToHorizontal` always returns an altitude in
[−π/2, π/2] and an azimuth in the closed interval [0, 2π]; azimuth
exactly 2π is attained (at `ra = 0, dec = π/2, lst = π/2, lat = 0` the
west-of-meridian branch returns `2π − arccos 1 = 2π`), so the output is
not strictly normalized into [0, 2π). -/
theorem equatorialToHorizontal_output_ranges :
    (∀ ra dec lst lat : ℝ,
      (-(π / 2) ≤ (equatorialToHorizontal ra dec lst lat).1 ∧
        (equatorialToHorizontal ra dec lst lat).1 ≤ π / 2) ∧
      (0 ≤ (equatorialToHorizontal ra dec lst lat).2 ∧
        (equatorialToHorizontal ra dec lst lat).2 ≤ 2 * π)) ∧
    (equatorialToHorizontal 0 (π / 2) (π / 2) 0).2 = 2 * π := by
  constructor
  · intro ra dec lst lat
    have hpi := Real.pi_pos
    have harc1 : 0 ≤ arccos (clamp1 (cosAzOf ra dec lst lat)) :=
      Real.arccos_nonneg _
    have harc2 : arccos (clamp1 (cosAzOf ra dec lst lat)) ≤ π :=
      Real.arccos_le_pi _
    unfold equatorialToHorizontal
    dsimp only
    constructor
    · constructor <;> split_ifs <;> dsimp only <;>
        first
          | exact Real.neg_pi_div_two_le_arcsin _
          | exact Real.arcsin_le_pi_div_two _
    · constructor <;> split_ifs <;> dsimp only <;>
        first
          | positivity
          | linarith
  · have hs : sinAltOf 0 (π / 2) (π / 2) 0 = 0 := by
      simp [sinAltOf]
    have hc0 : clamp1 (0 : ℝ) = 0 := by
      unfold clamp1
      norm_num
    have halt : altOf 0 (π / 2) (π / 2) 0 = 0 := by
      simp [altOf, hs, hc0, Real.arcsin_zero]
    have hcosAlt : cosAltOf 0 (π / 2) (π / 2) 0 = 1 := by
      simp [cosAltOf, halt]
    have hcosAz : cosAzOf 0 (π / 2) (π / 2) 0 = 1 := by
      simp [cosAzOf, hs, hcosAlt]
    have hc1 : clamp1 (1 : ℝ) = 1 := by
      unfold clamp1
      norm_num
    have hguard : ¬ (|cosAltOf 0 (π / 2) (π / 2) 0| < 1e-10) := by
      rw [hcosAlt]
      norm_num
    have hsin : sin ((π / 2 : ℝ) - 0) > 0 := by
      rw [sub_zero, Real.sin_pi_div_two]
      norm_num
    unfold equatorialToHorizontal
    rw [if_neg hguard]
    dsimp only
    rw [if_pos hsin, hcosAz, hc1, Real.arccos_one, sub_zero]

/-- C9: in both `angularDistance` and `angularDistanceAltAz` the argument
`min 1 a` handed to the square root lies in [0, 1] for all real inputs
(the haversine term `a` is nonnegative and the explicit `min` guards
rounding past 1), so the returned distance is the well-defined value
`2 * asin (sqrt (min 1 a))`, which lies in [0, π]. -/
theorem angularDistance_sqrt_arg_in_unit : ∀ a b c d : ℝ,
    (0 ≤ min 1 (haversineTerm a b c d) ∧ min 1 (haversineTerm a b c d) ≤ 1 ∧
      0 ≤ angularDistance a b c d ∧ angularDistance a b c d ≤ π) ∧
    (0 ≤ min 1 (haversineTermAltAz a b c d) ∧
      min 1 (haversineTermAltAz a b c d) ≤ 1 ∧
      0 ≤ angularDistanceAltAz a b c d ∧ angularDistanceAltAz a b c d ≤ π) := by
  intro a b c d
  have h1 := haversineTerm_nonneg a b c d
  have h2 := haversineTermAltAz_nonneg a b c d
  have k1 : 0 ≤ arcsin (Real.sqrt (min 1 (haversineTerm a b c d))) :=
    Real.arcsin_nonneg.mpr (Real.sqrt_nonneg _)
  have k2 : 0 ≤ arcsin (Real.sqrt (min 1 (haversineTermAltAz a b c d))) :=
    Real.arcsin_nonneg.mpr (Real.sqrt_nonneg _)
  have m1 : arcsin (Real.sqrt (min 1 (haversineTerm a b c d))) ≤ π / 2 :=
    Real.arcsin_le_pi_div_two _
  have m2 : arcsin (Real.sqrt (min 1 (haversineTermAltAz a b c d))) ≤ π / 2 :=
    Real.arcsin_le_pi_div_two _
  unfold angularDistance angularDistanceAltAz
  exact ⟨⟨le_min (by norm_num) h1, min_le_left _ _, by linarith, by linarith⟩,
    ⟨le_min (by norm_num) h2, min_le_left _ _, by linarith, by linarith⟩⟩

/-- C7: whenever the observer is initialized, `updateStarPositions` leaves
the output with exactly one entry per catalog entry, and entry `i` carries
catalog entry `i`'s `hip`, `mag`, `bv` and `name` copied through unchanged
— so the index-to-object mapping is determined by the catalog alone and is
identical across repeated calls. -/
theorem updateStarPositions_indexed_by_catalog :
    ∀ (STARS : List StarRecord) (nowMs : ℝ) (s : EngineState),
      s.initialized = true →
      (updateStarPositions STARS nowMs s).starPositions.length =
          STARS.length ∧
      ∀ (i : ℕ) (h1 : i < (updateStarPositions STARS nowMs
            s).starPositions.length) (h2 : i < STARS.length),
        ((updateStarPositions STARS nowMs s).starPositions.get ⟨i, h1⟩).hip =
            (STARS.get ⟨i, h2⟩).hip ∧
        ((updateStarPositions STARS nowMs s).starPositions.get ⟨i, h1⟩).mag =
            (STARS.get ⟨i, h2⟩).mag ∧
        ((updateStarPositions STARS nowMs s).starPositions.get ⟨i, h1⟩).bv =
            (STARS.get ⟨i, h2⟩).bv ∧
        ((updateStarPositions STARS nowMs s).starPositions.get ⟨i, h1⟩).name =
            (STARS.get ⟨i, h2⟩).name := by
  intro STARS nowMs s hinit
  constructor
  · simp [updateStarPositions, hinit]
  · intro i h1 h2
    simp only [updateStarPositions, hinit, if_true, List.get_eq_getElem] at h1 ⊢
    simp [List.getElem_map]

/-- C7 witness: a one-star catalog with an initialized observer; the output
has length 1 and entry 0 carries the catalog identity fields. -/
theorem updateStarPositions_indexed_by_catalog_example :
    (updateStarPositions [⟨1, 0, 0, 0, 0, "", ""⟩] 0
        ⟨⟨0, 0, 0, 0, 0⟩, [], true⟩).starPositions.length = 1 ∧
    ∀ (i : ℕ) (h1 : i < (updateStarPositions [⟨1, 0, 0, 0, 0, "", ""⟩] 0
          ⟨⟨0, 0, 0, 0, 0⟩, [], true⟩).starPositions.length)
      (h2 : i < ([⟨1, 0, 0, 0, 0, "", ""⟩] : List StarRecord).length),
      ((updateStarPositions [⟨1, 0, 0, 0, 0, "", ""⟩] 0
          ⟨⟨0, 0, 0, 0, 0⟩, [], true⟩).starPositions.get ⟨i, h1⟩).hip =
        (([⟨1, 0, 0, 0, 0, "", ""⟩] : List StarRecord).get ⟨i, h2⟩).hip ∧
      ((updateStarPositions [⟨1, 0, 0, 0, 0, "", ""⟩] 0
          ⟨⟨0, 0, 0, 0, 0⟩, [], true⟩).starPositions.get ⟨i, h1⟩).mag =
        (([⟨1, 0, 0, 0, 0, "", ""⟩] : List StarRecord).get ⟨i, h2⟩).mag ∧
      ((updateStarPositions [⟨1, 0, 0, 0, 0, "", ""⟩] 0
          ⟨⟨0, 0, 0, 0, 0⟩, [], true⟩).starPositions.get ⟨i, h1⟩).bv =
        (([⟨1, 0, 0, 0, 0, "", ""⟩] : List StarRecord).get ⟨i, h2⟩).bv ∧
      ((updateStarPositions [⟨1, 0, 0, 0, 0, "", ""⟩] 0
          ⟨⟨0, 0, 0, 0, 0⟩, [], true⟩).starPositions.get ⟨i, h1⟩).name =
        (([⟨1, 0, 0, 0, 0, "", ""⟩] : List StarRecord).get ⟨i, h2⟩).name :=
  updateStarPositions_indexed_by_catalog [⟨1, 0, 0, 0, 0, "", ""⟩] 0
    ⟨⟨0, 0, 0, 0, 0⟩, [], true⟩ rfl

/-- C8: with the observer not yet initialized, `updateStarPositions` is a
no-op — the returned state (star-position buffer and every observer field
included) is the input state. -/
theorem updateStarPositions_noop_when_uninitialized :
    ∀ (STARS : List StarRecord) (nowMs : ℝ) (s : EngineState),
      s.initialized = false → updateStarPositions STARS nowMs s = s := by
  intro STARS nowMs s hinit
  simp [updateStarPositions, hinit]

/-- C8 witness: the no-op at a concrete uninitialized state. -/
theorem updateStarPositions_noop_example :
    updateStarPositions [] 0 ⟨⟨0, 0, 0, 0, 0⟩, [], false⟩ =
      ⟨⟨0, 0, 0, 0, 0⟩, [], false⟩ :=
  updateStarPositions_noop_when_uninitialized [] 0
    ⟨⟨0, 0, 0, 0, 0⟩, [], false⟩ rfl

/-- C6 witness: the bounds and the wraparound value at (359, 1, 0.5). -/
theorem smoothHeading_spec_at_boundary :
    0 ≤ smoothHeading 359 1 (1 / 2) ∧ smoothHeading 359 1 (1 / 2) < 360 ∧
      smoothHeading 359 1 (1 / 2) = 0 :=
  ⟨(smoothHeading_spec.1 359 1 (1 / 2) (by norm_num) (by norm_num)
      (by norm_num) (by norm_num) (by norm_num) (by norm_num)).1,
    (smoothHeading_spec.1 359 1 (1 / 2) (by norm_num) (by norm_num)
      (by norm_num) (by norm_num) (by norm_num) (by norm_num)).2.1,
    smoothHeading_spec.2⟩

/-! ## Gaze state machine lemmas -/

theorem runGaze_nil (c : String) (s : GazeState) : runGaze c [] s = s := rfl

theorem runGaze_cons (c : String) (δ : ℚ) (δs : List ℚ) (s : GazeState) :
    runGaze c (δ :: δs) s = runGaze c δs (gazeStep c δ s) := rfl

/-- A tick whose candidate equals the current match accumulates dwell and
highlights once the hold delay is reached. -/
theorem gazeStep_matched (c : String) (hc : c ≠ "") (δ : ℚ) (s : GazeState)
    (h : s.current = c) :
    gazeStep c δ s =
      if s.hold + δ ≥ GAZE_HOLD_DELAY then
        { s with hold := s.hold + δ, highlighted := c }
      else { s with hold := s.hold + δ } := by
  unfold gazeStep
  rw [h]
  simp [hc]

theorem gazeStep_matched_fields (c : String) (hc : c ≠ "") (δ : ℚ)
    (s : GazeState) (h : s.current = c) :
    (gazeStep c δ s).current = c ∧ (gazeStep c δ s).hold = s.hold + δ ∧
      (gazeStep c δ s).deselects = s.deselects := by
  rw [gazeStep_matched c hc δ s h]
  split_ifs <;> exact ⟨h, rfl, rfl⟩

theorem gazeStep_confirm (c : String) (hc : c ≠ "") (δ : ℚ) (s : GazeState)
    (h : s.current = c) (hd : GAZE_HOLD_DELAY ≤ s.hold + δ) :
    (gazeStep c δ s).highlighted = c := by
  rw [gazeStep_matched c hc δ s h, if_pos hd]

/-- With a fixed nonempty candidate, the accumulated dwell at the end of a
tick sequence decides the final highlight. -/
theorem runGaze_confirm (c : String) (hc : c ≠ "") : ∀ (δs : List ℚ)
    (s : GazeState), δs ≠ [] → s.current = c →
    GAZE_HOLD_DELAY ≤ s.hold + δs.sum → (runGaze c δs s).highlighted = c := by
  intro δs
  induction δs with
  | nil => intro s hne _ _; exact absurd rfl hne
  | cons δ δs ih =>
    intro s _ hcur hsum
    rw [runGaze_cons]
    rcases eq_or_ne δs [] with rfl | hne
    · rw [runGaze_nil]
      refine gazeStep_confirm c hc δ s hcur ?_
      rw [List.sum_cons, List.sum_nil] at hsum
      linarith
    · have hf := gazeStep_matched_fields c hc δ s hcur
      refine ih (gazeStep c δ s) hne hf.1 ?_
      rw [hf.2.1]
      rw [List.sum_cons] at hsum
      linarith

/-- A tick with a fixed nonempty candidate can only leave the renderer
highlight unchanged or set it to that candidate. -/
theorem gazeStep_highlighted_cases (c : String) (hc : c ≠ "") (δ : ℚ)
    (s : GazeState) :
    (gazeStep c δ s).highlighted = s.highlighted ∨
      (gazeStep c δ s).highlighted = c := by
  unfold gazeStep
  by_cases h1 : c ≠ s.current
  · rw [if_pos h1, if_neg hc]
    exact Or.inl rfl
  · rw [if_neg h1]
    rw [if_pos hc]
    dsimp only
    split_ifs
    · exact Or.inr rfl
    · exact Or.inl rfl

theorem runGaze_highlighted_cases (c : String) (hc : c ≠ "") :
    ∀ (δs : List ℚ) (s : GazeState),
      (runGaze c δs s).highlighted = s.highlighted ∨
        (runGaze c δs s).highlighted = c := by
  intro δs
  induction δs with
  | nil => intro s; exact Or.inl rfl
  | cons δ δs ih =>
    intro s
    rw [runGaze_cons]
    rcases ih (gazeStep c δ s) with h | h
    · rcases gazeStep_highlighted_cases c hc δ s with h2 | h2
      · exact Or.inl (h.trans h2)
      · exact Or.inr (h.trans h2)
    · exact Or.inr h

/-- C1: (a) a match held across consecutive ticks whose elapsed times sum
to the 0.5 s hold delay gets confirmed — the renderer highlight is set to
the matched region; (b) re-confirming on a further tick while already
matched, held past the delay and highlighted is idempotent: the only state
change is the dwell accumulation, so the confirmation side effect cannot
fire a second time per episode; (c) a tick whose candidate differs from
the current match replaces the match and resets dwell to zero, touching
nothing else; (d) after such a switch, no sequence of ticks matched on the
new region can ever set the highlight to the first region. -/
theorem gaze_dwell_confirmation :
    (∀ (c : String) (δs : List ℚ) (s : GazeState), c ≠ "" →
      s.current = c → s.hold = 0 → δs ≠ [] → GAZE_HOLD_DELAY ≤ δs.sum →
      (runGaze c δs s).highlighted = c) ∧
    (∀ (c : String) (δ : ℚ) (s : GazeState), c ≠ "" → s.current = c →
      s.highlighted = c → GAZE_HOLD_DELAY ≤ s.hold → 0 ≤ δ →
      gazeStep c δ s = { s with hold := s.hold + δ }) ∧
    (∀ (c : String) (δ : ℚ) (s : GazeState), c ≠ "" → c ≠ s.current →
      gazeStep c δ s = { s with current := c, hold := 0 }) ∧
    (∀ (c r : String) (δs : List ℚ) (s : GazeState), c ≠ "" → r ≠ c →
      s.highlighted ≠ r → (runGaze c δs s).highlighted ≠ r) := by
  refine ⟨fun c δs s hc hcur hh0 hne hsum => ?_,
    fun c δ s hc hcur hhl hd hδ => ?_,
    fun c δ s hc hne => ?_,
    fun c r δs s hc hr hhl => ?_⟩
  · refine runGaze_confirm c hc δs s hne hcur ?_
    rw [hh0, zero_add]
    exact hsum
  · rw [gazeStep_matched c hc δ s hcur, if_pos (by linarith)]
    rw [← hhl]
  · unfold gazeStep
    rw [if_pos hne, if_neg hc]
  · rcases runGaze_highlighted_cases c hc δs s with h | h
    · rw [h]; exact hhl
    · rw [h]; exact Ne.symm hr

/-- C1 witness: a match on "ORI" held for two 0.3 s ticks is confirmed;
re-confirming from a confirmed state only accumulates dwell; switching to
"UMA" resets dwell; and after the switch two 1 s ticks on "UMA" never
highlight "ORI". -/
theorem gaze_dwell_confirmation_example :
    (runGaze "ORI" [3 / 10, 3 / 10] ⟨"ORI", 0, "", 0⟩).highlighted = "ORI" ∧
    gazeStep "ORI" (1 / 10) ⟨"ORI", 1 / 2, "ORI", 0⟩ =
      ⟨"ORI", 1 / 2 + 1 / 10, "ORI", 0⟩ ∧
    gazeStep "UMA" 1 ⟨"ORI", 3 / 10, "", 0⟩ = ⟨"UMA", 0, "", 0⟩ ∧
    (runGaze "UMA" [1, 1] ⟨"UMA", 0, "", 0⟩).highlighted ≠ "ORI" :=
  ⟨gaze_dwell_confirmation.1 "ORI" [3 / 10, 3 / 10] ⟨"ORI", 0, "", 0⟩
      (by decide) rfl rfl (by decide)
      (by norm_num [GAZE_HOLD_DELAY, List.sum_cons, List.sum_nil]),
    gaze_dwell_confirmation.2.1 "ORI" (1 / 10) ⟨"ORI", 1 / 2, "ORI", 0⟩
      (by decide) rfl rfl (by norm_num [GAZE_HOLD_DELAY]) (by norm_num),
    gaze_dwell_confirmation.2.2.1 "UMA" 1 ⟨"ORI", 3 / 10, "", 0⟩
      (by decide) (by decide),
    gaze_dwell_confirmation.2.2.2 "UMA" "ORI" [1, 1] ⟨"UMA", 0, "", 0⟩
      (by decide) (by decide) (by decide)⟩

/-- C2: (a) a gaze altitude below the −5° sub-horizon margin yields no
candidate regardless of any distances: the tick takes the clear path
unconditionally; (b) when every centroid whose converted altitude is at or
above the horizon lies strictly beyond the 8° threshold, the selection
loop returns the empty candidate — centroids below the horizon are never
consulted, so the hypothesis does not constrain them even if one is the
global minimum. -/
theorem gaze_no_candidate_conditions :
    (∀ (gazeAlt gazeAz lst lat : ℝ) (cons : List ConstellationRecord)
      (δ : ℚ) (s : GazeState), gazeAlt < -5 * (π / 180) →
      updateGaze gazeAlt gazeAz lst lat cons δ s = clearGaze s) ∧
    (∀ (gazeAlt gazeAz lst lat : ℝ) (cons : List ConstellationRecord),
      (∀ c ∈ cons,
        0 ≤ (equatorialToHorizontal c.centroidRA c.centroidDec lst lat).1 →
        GAZE_THRESHOLD_RAD < angularDistanceAltAz gazeAlt gazeAz
          (equatorialToHorizontal c.centroidRA c.centroidDec lst lat).1
          (equatorialToHorizontal c.centroidRA c.centroidDec lst lat).2) →
      (selectCandidate gazeAlt gazeAz lst lat cons).1 = "") := by
  constructor
  · intro gazeAlt gazeAz lst lat cons δ s h
    unfold updateGaze
    rw [if_pos h]
  · intro gazeAlt gazeAz lst lat cons hfar
    unfold selectCandidate
    have hstay : ∀ (l : List ConstellationRecord),
        (∀ c ∈ l,
          0 ≤ (equatorialToHorizontal c.centroidRA c.centroidDec lst lat).1 →
          GAZE_THRESHOLD_RAD < angularDistanceAltAz gazeAlt gazeAz
            (equatorialToHorizontal c.centroidRA c.centroidDec lst lat).1
            (equatorialToHorizontal c.centroidRA c.centroidDec lst lat).2) →
        l.foldl (candidateStep gazeAlt gazeAz lst lat)
          ("", GAZE_THRESHOLD_RAD) = ("", GAZE_THRESHOLD_RAD) := by
      intro l
      induction l with
      | nil => intro _; rfl
      | cons c cs ih =>
        intro hl
        rw [List.foldl_cons]
        have hc : candidateStep gazeAlt gazeAz lst lat
            ("", GAZE_THRESHOLD_RAD) c = ("", GAZE_THRESHOLD_RAD) := by
          unfold candidateStep
          dsimp only
          split_ifs with h1 h2
          · rfl
          · exact absurd h2 (not_lt_of_gt
              (hl c (List.mem_cons_self c cs) (le_of_not_lt h1)))
          · rfl
        rw [hc]
        exact ih (fun d hd => hl d (List.mem_cons_of_mem c hd))
    rw [hstay cons hfar]

/-- C2 witness: a below-horizon gaze at −1 rad takes the clear path, and
over the empty constellation table the selection returns no candidate. -/
theorem gaze_no_candidate_example :
    updateGaze (-1) 0 0 0 [] 1 ⟨"", 0, "", 0⟩ = clearGaze ⟨"", 0, "", 0⟩ ∧
    (selectCandidate 0 0 0 0 []).1 = "" :=
  ⟨gaze_no_candidate_conditions.1 (-1) 0 0 0 [] 1 ⟨"", 0, "", 0⟩
      (by nlinarith [Real.pi_lt_d2]),
    gaze_no_candidate_conditions.2 0 0 0 0 [] (by simp)⟩

/-- C3: a no-candidate tick with a region previously matched clears the
gaze state (empty matched code, dwell 0, highlight cleared) and fires the
deselect callback exactly once; a further no-candidate tick on the
already-empty state changes nothing, so two successive no-candidate ticks
still report exactly one deselect. -/
theorem gaze_clear_deselects_once :
    (∀ (δ : ℚ) (s : GazeState), s.current ≠ "" →
      gazeStep "" δ s = ⟨"", 0, "", s.deselects + 1⟩) ∧
    (∀ (δ : ℚ) (s : GazeState), s.current = "" → gazeStep "" δ s = s) ∧
    (∀ (δ δ' : ℚ) (s : GazeState), s.current ≠ "" →
      (gazeStep "" δ' (gazeStep "" δ s)).deselects = s.deselects + 1) := by
  have p1 : ∀ (δ : ℚ) (s : GazeState), s.current ≠ "" →
      gazeStep "" δ s = ⟨"", 0, "", s.deselects + 1⟩ := by
    intro δ s hs
    unfold gazeStep
    rw [if_pos (Ne.symm hs), if_pos rfl]
    unfold clearGaze
    rw [if_pos hs]
  have p2 : ∀ (δ : ℚ) (s : GazeState), s.current = "" →
      gazeStep "" δ s = s := by
    intro δ s hs
    unfold gazeStep
    rw [if_neg (not_ne_iff.mpr hs.symm), if_neg (fun h => h rfl)]
  refine ⟨p1, p2, fun δ δ' s hs => ?_⟩
  rw [p1 δ s hs, p2 δ' ⟨"", 0, "", s.deselects + 1⟩ rfl]

/-- C3 witness: clearing from a matched state fires one deselect; a second
no-candidate tick leaves the already-cleared state untouched. -/
theorem gaze_clear_deselects_once_example :
    gazeStep "" 1 ⟨"ORI", 1 / 4, "ORI", 5⟩ = ⟨"", 0, "", 6⟩ ∧
    gazeStep "" 1 ⟨"", 0, "", 6⟩ = ⟨"", 0, "", 6⟩ ∧
    (gazeStep "" 1 (gazeStep "" 1 ⟨"ORI", 1 / 4, "ORI", 5⟩)).deselects = 6 :=
  ⟨gaze_clear_deselects_once.1 1 ⟨"ORI", 1 / 4, "ORI", 5⟩ (by decide),
    gaze_clear_deselects_once.2.1 1 ⟨"", 0, "", 6⟩ rfl,
    gaze_clear_deselects_once.2.2 1 1 ⟨"ORI", 1 / 4, "ORI", 5⟩ (by decide)⟩

end SkyGuide
